import Mathlib

/-!
# Verification of the autonomous warehouse decision engine

Shallow embedding of the replenishment controller:
`src/config.py`, `src/knowledge/knowledge.py`, `src/automatic_manager/planner.py`,
`src/automatic_manager/analyzer.py`, `src/automatic_manager/executor.py`.

Python floats are modelled as exact rationals (`ℚ`); the transcendental
library functions the planner calls (`math.erf`, `math.exp`, `math.sqrt`,
`x ** r`, `math.pi`) are abstract parameters bundled in `RealFns`, since no
property proved here depends on their values.  The analyzer's population
standard deviation genuinely needs a square root, so that component uses `ℝ`
and `Real.sqrt`.  The external MILP backend (`pulp` / CBC) is modelled by
quantifying over its output: either no solution (all variable values `none`)
or a feasible 0/1 assignment of the exact problem the code builds.
-/

namespace Warehouse

/-! ## Python rounding

`round` in Python rounds half to even (banker's rounding). -/

/-- Python `round(x)` (round half to even), on exact rationals. -/
def pyRound (x : ℚ) : ℤ :=
  let f := ⌊x⌋
  let r := x - f
  if r < 1/2 then f
  else if 1/2 < r then f + 1
  else if f % 2 = 0 then f else f + 1

/-- Python `round(x, 2)`: banker's rounding at two decimal places. -/
def round2 (x : ℚ) : ℚ := (pyRound (x * 100) : ℚ) / 100

/-! ## Configuration (`src/config.py`) -/

def SERVICE_LEVEL_TARGET : ℚ := 95/100
def INITIAL_BUDGET : ℚ := 30000
def DAILY_BUDGET_LIMIT : ℚ := 30000
def BULLWHIP_LAMBDA : ℚ := 1
def CANDIDATE_QTYS : List ℤ := [0, 25, 50, 75, 100, 150, 200, 250]
def STOCKOUT_PENALTY_PER_UNIT : ℚ := 300
def OVERSTOCK_DAYS_OF_COVER : ℚ := 45
def STOP_ORDERS_DAYS : ℤ := 2
def Z_BASE : ℚ := 5/2
def Z_MIN : ℚ := 2
def Z_MAX : ℚ := 7/2
def VOL_TO_Z_SCALE : ℚ := 12/100
def ANOMALY_Z_THRESHOLD : ℚ := 2

/-- One catalog entry of `config.PRODUCTS`. -/
structure Product where
  pname : String
  daily_demand_mean : ℚ
  daily_demand_std : ℚ
  unit_price : ℚ
  unit_cost : ℚ
  holding_cost_per_unit_day : ℚ
  order_fixed_cost : ℚ
  lt_min : ℚ
  lt_max : ℚ
  initial_stock : ℤ
deriving Inhabited, DecidableEq

/-- `config.PRODUCTS` (insertion order of the Python dict). -/
def PRODUCTS : List (String × Product) :=
  [("SKU_001", ⟨"Laptop", 20, 4, 1000, 550, 3/10, 50, 2, 4, 550⟩),
   ("SKU_002", ⟨"Phone", 35, 8, 700, 350, 1/4, 45, 2, 5, 750⟩),
   ("SKU_003", ⟨"Headphones", 55, 15, 120, 45, 2/25, 25, 1, 3, 550⟩),
   ("SKU_004", ⟨"Mouse", 70, 18, 35, 8, 1/50, 15, 1, 2, 700⟩)]

/-- `config.PRODUCTS[sku]`.  The Python code only ever indexes with catalog
keys (a missing key would raise `KeyError`); the default is never reached. -/
def productOf (sku : String) : Product := (PRODUCTS.lookup sku).getD default

/-! ## Knowledge store (`src/knowledge/knowledge.py`)

Python dicts with a `.get(key, default)` read discipline are modelled as
`String → Option _` maps; `history`/`orders` dicts, which are initialised
with every catalog key, as total functions defaulting to `[]`. -/

/-- One sales-history record (`Knowledge.record_outcome`). -/
structure DayRec where
  day : ℤ
  demand : ℤ
  sales : ℤ
  lost_sales : ℤ
deriving DecidableEq

/-- `OrderRecord` of `knowledge.py`. -/
structure OrderRecord where
  day : ℤ
  sku : String
  qty : ℤ
  spend : ℚ
deriving DecidableEq

/-- A pending-order snapshot entry (`Knowledge.set_pending_orders`). -/
structure PendingOrder where
  sku : String
  qty : ℤ
  arrival_day : ℤ
  unit_cost : ℚ
deriving DecidableEq

/-- `ForecastRecord` stored by `Knowledge.store_forecast`. -/
structure Forecast where
  mean : ℚ
  std : ℚ
  model : String
deriving DecidableEq

inductive AnomalyType where
  | spike
  | drop
deriving DecidableEq

/-- An anomaly record as the planner reads it (only `type` is consumed). -/
structure PAnomaly where
  atype : AnomalyType
  z : ℚ
  today : ℚ
  mean : ℚ
deriving DecidableEq

/-- The MAPE-K knowledge base (`class Knowledge`). -/
structure Knowledge where
  day : ℤ
  budget : ℚ
  stock_levels : String → ℤ
  pending_orders : List PendingOrder
  history : String → List DayRec
  orders : String → List OrderRecord
  forecast : String → Option Forecast
  volatility : String → Option ℚ
  service_level : String → Option ℚ
  anomalies : String → Option PAnomaly
  safety_z : String → Option ℚ
  daily_budget_spent : ℚ
  blocks : String → Option ℤ

/-- `Knowledge.get_stock` (dict lookup with default 0). -/
def Knowledge.get_stock (kb : Knowledge) (sku : String) : ℤ := kb.stock_levels sku

/-- `Knowledge.get_stock_position`: on hand plus in transit. -/
def Knowledge.get_stock_position (kb : Knowledge) (sku : String) : ℤ :=
  kb.get_stock sku + ((kb.pending_orders.filter (fun o => o.sku == sku)).map (fun o => o.qty)).sum

/-- `Knowledge.get_last_order_qty`. -/
def Knowledge.get_last_order_qty (kb : Knowledge) (sku : String) : ℤ :=
  match (kb.orders sku).getLast? with
  | some r => r.qty
  | none => 0

/-- `Knowledge.is_blocked`: blocked while `day <= blocked_until` (inclusive). -/
def Knowledge.is_blocked (kb : Knowledge) (sku : String) : Bool :=
  match kb.blocks sku with
  | none => false
  | some u => decide (kb.day ≤ u)

/-- `Knowledge.block_orders`. -/
def Knowledge.block_orders (kb : Knowledge) (sku : String) (days : ℤ) : Knowledge :=
  { kb with blocks := fun s => if s = sku then some (kb.day + max 0 days) else kb.blocks s }

/-- `Knowledge.set_safety_z`. -/
def Knowledge.set_safety_z (kb : Knowledge) (sku : String) (z : ℚ) : Knowledge :=
  { kb with safety_z := fun s => if s = sku then some z else kb.safety_z s }

/-- `Knowledge.__init__`. -/
def init_knowledge : Knowledge where
  day := 0
  budget := INITIAL_BUDGET
  stock_levels := fun s => match PRODUCTS.lookup s with
    | some p => p.initial_stock
    | none => 0
  pending_orders := []
  history := fun _ => []
  orders := fun _ => []
  forecast := fun _ => none
  volatility := fun _ => none
  service_level := fun _ => none
  anomalies := fun _ => none
  safety_z := fun s => match PRODUCTS.lookup s with
    | some _ => some Z_BASE
    | none => none
  daily_budget_spent := 0
  blocks := fun _ => none

/-! ## Planner (`src/automatic_manager/planner.py`) -/

/-- `Candidate` dataclass of `planner.py`. -/
structure Candidate where
  qty : ℤ
  utility : ℚ
  spend : ℚ
deriving DecidableEq

/-- Abstract interface for the transcendental float functions the planner
calls (`math.erf`, `math.exp`, `math.sqrt`, `**`, `math.pi`).  Every theorem
about the planner is proved for all values of these functions. -/
structure RealFns where
  erf : ℚ → ℚ
  exp : ℚ → ℚ
  sqrt : ℚ → ℚ
  pow : ℚ → ℚ → ℚ
  pi : ℚ

/-- `Planner._norm_cdf`. -/
def norm_cdf (F : RealFns) (z : ℚ) : ℚ := 1/2 * (1 + F.erf (z / F.sqrt 2))

/-- `Planner._norm_pdf`. -/
def norm_pdf (F : RealFns) (z : ℚ) : ℚ :=
  (1 / F.sqrt (2 * F.pi)) * F.exp (-(1/2) * z * z)

/-- `Planner._expected_sales_stockout`. -/
def expected_sales_stockout (F : RealFns) (mu sigma available : ℚ) : ℚ × ℚ :=
  if sigma ≤ 1/1000000 then
    let sold := min mu available
    (max 0 sold, max 0 (mu - sold))
  else
    let z := (available - mu) / sigma
    let Phi := norm_cdf F z
    let phi := norm_pdf F z
    let expected_sales := max 0 (min available (mu * Phi + available * (1 - Phi) - sigma * phi))
    (expected_sales, max 0 (mu - expected_sales))

/-- `Planner._is_overstock`. -/
def is_overstock (mean_demand : ℚ) (stock_pos : ℤ) : Bool :=
  if mean_demand ≤ 1 then false
  else decide (OVERSTOCK_DAYS_OF_COVER < (stock_pos : ℚ) / mean_demand)

/-- `Planner.candidate_utility`.  The local `z` read of `safety_z` is kept
(as in the source) although the source never uses it afterwards. -/
def candidate_utility (F : RealFns) (kb : Knowledge) (sku : String) (qty : ℤ) : Candidate :=
  let p := productOf sku
  let mean := match kb.forecast sku with | some fc => fc.mean | none => 0
  let std := match kb.forecast sku with | some fc => fc.std | none => 1
  let lt : ℤ := max 1 (pyRound ((p.lt_min + p.lt_max) / 2))
  let rapid : Bool := match kb.anomalies sku with
    | some a => a.atype == AnomalyType.spike
    | none => false
  let z := match kb.safety_z sku with | some w => w | none => Z_BASE
  let mult := mean * (lt : ℚ)
  let sigma_lt := std * F.sqrt (lt : ℚ)
  let stockpos := kb.get_stock_position sku
  let available : ℚ := (stockpos : ℚ) + (qty : ℚ)
  let mu := mult * (if rapid then 3/2 else 1)
  let sigma := sigma_lt
  let es := expected_sales_stockout F mu sigma available
  let revenue := es.1 * p.unit_price
  let ordercost := (qty : ℚ) * p.unit_cost + (if 0 < qty then p.order_fixed_cost else 0)
  let leftover := max 0 (available - es.1)
  let holdingcost := leftover * p.holding_cost_per_unit_day * (lt : ℚ)
  let price_weight := max 1 (F.pow (p.unit_price / 50) (6/5))
  let current_sl := match kb.service_level sku with | some s => s | none => 1
  let sl_factor := if current_sl < SERVICE_LEVEL_TARGET then
      1 + (SERVICE_LEVEL_TARGET - current_sl) * 5
    else 1
  let stockout_penalty :=
    min (es.2 * STOCKOUT_PENALTY_PER_UNIT * price_weight * sl_factor) 50000
  let prevq := kb.get_last_order_qty sku
  let bullwhip_penalty := BULLWHIP_LAMBDA * |(qty : ℚ) - (prevq : ℚ)|
  let utility := revenue - ordercost - holdingcost - stockout_penalty - bullwhip_penalty
  let _ := z
  ⟨qty, utility, ordercost⟩

/-- The service-level priority adjustment applied to a product's candidate
list in `Planner.plan` (lines 145-169); in-place utility mutation rendered
as a `map`. -/
def sl_adjust (F : RealFns) (kb : Knowledge) (sku : String) (cands : List Candidate) :
    List Candidate :=
  let p := productOf sku
  let current_sl := match kb.service_level sku with | some s => s | none => 1
  let target_sl := SERVICE_LEVEL_TARGET
  let unit_price := p.unit_price
  let mean_demand := max 1 (match kb.forecast sku with | some fc => fc.mean | none => 20)
  let priority_weight := max 1 (F.pow (unit_price / 50) (13/10))
  if current_sl < target_sl then
    let sl_deficit := target_sl - current_sl
    cands.map (fun c =>
      if c.qty = 0 then
        { c with utility := c.utility - sl_deficit * mean_demand * 20000 * priority_weight }
      else
        { c with utility := c.utility + sl_deficit * (c.qty : ℚ) * 500 * priority_weight })
  else if current_sl < target_sl + 3/100 then
    cands.map (fun c =>
      if 0 < c.qty then { c with utility := c.utility + (c.qty : ℚ) * 100 * priority_weight }
      else c)
  else cands

/-- The rounded spend level used as pruning key (`int(round(c.spend))`). -/
def bucketOf (c : Candidate) : ℤ := pyRound c.spend

/-- One iteration of the heuristic pruning loop (lines 172-176): a Python
dict keyed by rounded spend, keeping per key the highest-utility candidate;
updating an existing key keeps its position, a new key is appended. -/
def pruneStep (acc : List (ℤ × Candidate)) (c : Candidate) : List (ℤ × Candidate) :=
  if bucketOf c ∈ acc.map Prod.fst then
    acc.map (fun e => if e.1 = bucketOf c ∧ e.2.utility < c.utility then (e.1, c) else e)
  else acc ++ [(bucketOf c, c)]

/-- The heuristic pruning (`best` dict, then `list(best.values())`). -/
def prune (cands : List Candidate) : List Candidate :=
  (cands.foldl pruneStep []).map Prod.snd

/-- The `Candidate(qty=0, utility=0.0, spend=0.0)` used for blocked and
freshly frozen products. -/
def zero_candidate : Candidate := ⟨0, 0, 0⟩

/-- `float(self.kb.forecast.get(sku, {}).get('mean', 0.0))`. -/
def Knowledge.forecast_mean0 (kb : Knowledge) (sku : String) : ℚ :=
  match kb.forecast sku with
  | some fc => fc.mean
  | none => 0

/-- The overstock branch guard of the per-product loop: not blocked and
`_is_overstock` holds. -/
def overstock_hit (kb : Knowledge) (e : String × Product) : Bool :=
  !kb.is_blocked e.1 && is_overstock (kb.forecast_mean0 e.1) (kb.get_stock_position e.1)

/-- The candidate menu the per-product loop of `Planner.plan` stores in
`sku_cands[sku]`: a blocked or freshly frozen product gets only the zero
candidate; otherwise the generated, service-level-adjusted, pruned list. -/
def candsFor (F : RealFns) (kb : Knowledge) (e : String × Product) : List Candidate :=
  if kb.is_blocked e.1 then [zero_candidate]
  else if is_overstock (kb.forecast_mean0 e.1) (kb.get_stock_position e.1) then [zero_candidate]
  else prune (sl_adjust F kb e.1 (CANDIDATE_QTYS.map (fun q => candidate_utility F kb e.1 q)))

/-- A `stop_orders` entry of the plan. -/
structure StopOrder where
  sku : String
  days : ℤ
deriving DecidableEq

/-- Accumulated state of the per-product loop of `Planner.plan`. -/
structure PlanState where
  kb : Knowledge
  cands : List (String × List Candidate)
  blocked : List String
  stops : List StopOrder

/-- One iteration of the per-product loop (lines 125-177), written so that
every branch appends exactly one `sku_cands` entry, as the source does. -/
def planStep (F : RealFns) (st : PlanState) (e : String × Product) : PlanState where
  kb := if overstock_hit st.kb e then st.kb.block_orders e.1 STOP_ORDERS_DAYS else st.kb
  cands := st.cands ++ [(e.1, candsFor F st.kb e)]
  blocked := st.blocked ++ (if st.kb.is_blocked e.1 then [e.1] else [])
  stops := st.stops ++ (if overstock_hit st.kb e then [⟨e.1, STOP_ORDERS_DAYS⟩] else [])

/-- `Planner._dynamic_z` for one product: clamped linear volatility map. -/
def dynamic_z_value (kb : Knowledge) (sku : String) : ℚ :=
  let vol := match kb.volatility sku with | some v => v | none => 1
  max Z_MIN (min Z_MAX (Z_BASE + VOL_TO_Z_SCALE * vol))

/-- The `_dynamic_z` pass over all products (lines 118-119). -/
def apply_dynamic_z (kb : Knowledge) : Knowledge :=
  PRODUCTS.foldl (fun k e => k.set_safety_z e.1 (dynamic_z_value k e.1)) kb

/-- The state after candidate generation, just before the MILP solve. -/
def planState (F : RealFns) (kb : Knowledge) : PlanState :=
  PRODUCTS.foldl (planStep F) ⟨apply_dynamic_z kb, [], [], []⟩

/-- `pulp.value(x) is not None and value > 0.5` for one binary variable. -/
def val_hits (o : Option ℚ) : Bool :=
  match o with
  | some v => decide (1/2 < v)
  | none => false

/-- Result extraction for one product (lines 212-218): `chosen = cands[0]`,
then the first index whose variable value exceeds 0.5, if any. -/
def chosenOf (vals : ℕ → Option ℚ) (cands : List Candidate) : Candidate :=
  match (List.range cands.length).find? (fun i => val_hits (vals i)) with
  | some i => cands.getD i zero_candidate
  | none => cands.headD zero_candidate

/-- One entry of `plan['orders']`. -/
structure OrderEntry where
  qty : ℤ
  expected_utility : ℚ
  spend : ℚ
deriving DecidableEq

/-- `plan['meta']`. -/
structure PlanMeta where
  budget_limit : ℚ
  spend : ℚ
  utility : ℚ
  blocked_skus : List String
deriving DecidableEq

/-- The plan dict returned by `Planner.plan`. -/
structure Plan where
  day : ℤ
  orders : List (String × OrderEntry)
  stop_orders : List StopOrder
  meta : PlanMeta

/-- `Planner.plan`.  `vals` is the value assignment the external CBC solver
returns for the binary variables `x[(sku, i)]` (`none` when the backend
reports no solution); the plan and the mutated knowledge base are returned. -/
def Planner.plan (F : RealFns) (kb : Knowledge) (vals : String → ℕ → Option ℚ) :
    Plan × Knowledge :=
  let day := kb.day
  let st := planState F kb
  let chosen := st.cands.map (fun pr => (pr.1, chosenOf (vals pr.1) pr.2))
  let total_spend := (chosen.map (fun pr => pr.2.spend)).sum
  let total_util := (chosen.map (fun pr => pr.2.utility)).sum
  ({ day := day
     orders := chosen.map (fun pr => (pr.1, ⟨pr.2.qty, pr.2.utility, pr.2.spend⟩))
     stop_orders := st.stops
     meta := ⟨DAILY_BUDGET_LIMIT, round2 total_spend, round2 total_util, st.blocked⟩ },
   st.kb)

/-! ### The MILP contract

`prob.solve(pulp.PULP_CBC_CMD(...))` hands the built problem to an external
exact solver.  Its output is either no solution (every `pulp.value` is
`None`) or a feasible 0/1 assignment of the problem the code stated:
exactly one candidate selected per product (constraint line 197) and total
selected spend within the budget (constraint lines 200-204). -/

/-- The backend returned no solution: every variable value reads `None`. -/
def NoSolution (vals : String → ℕ → Option ℚ) : Prop := ∀ sku i, vals sku i = none

/-- A one-hot 0/1 assignment over `n` variables selecting index `j`. -/
def OneHot (n : ℕ) (v : ℕ → Option ℚ) : Prop :=
  ∃ j, j < n ∧ ∀ i, i < n → v i = some (if i = j then 1 else 0)

/-- The left-hand side of the budget constraint (lines 200-204). -/
def milp_spend (sc : List (String × List Candidate)) (vals : String → ℕ → Option ℚ) : ℚ :=
  (sc.map (fun pr =>
    ((List.range pr.2.length).map
      (fun i => ((vals pr.1 i).getD 0) * (pr.2.getD i zero_candidate).spend)).sum)).sum

/-- The solver output satisfies the stated MILP constraints. -/
def MilpFeasible (sc : List (String × List Candidate)) (vals : String → ℕ → Option ℚ) : Prop :=
  (∀ pr ∈ sc, OneHot pr.2.length (vals pr.1)) ∧ milp_spend sc vals ≤ DAILY_BUDGET_LIMIT

/-! ## Executor (`src/automatic_manager/executor.py`)

`env.place_order` belongs to the simulated environment, an external
collaborator; only its effect on the knowledge base and on the returned
action summary is modelled. -/

/-- An `orders_placed` entry (the environment-supplied `lead_time` field is
external and omitted). -/
structure PlacedOrder where
  sku : String
  qty : ℤ
  spend : ℚ
deriving DecidableEq

/-- The `actions` dict built by `Executor.execute`. -/
structure ExecResult where
  orders_placed : List PlacedOrder
  spend : ℚ
deriving DecidableEq

/-- One iteration of the order-application loop of `Executor.execute`. -/
def exec_step (st : ExecResult × Knowledge) (od : String × OrderEntry) :
    ExecResult × Knowledge :=
  let qty := od.2.qty
  if qty ≤ 0 then st
  else
    let p := productOf od.1
    let spend := (qty : ℚ) * p.unit_cost + p.order_fixed_cost
    if DAILY_BUDGET_LIMIT - st.2.daily_budget_spent < spend then st
    else
      ({ orders_placed := st.1.orders_placed ++ [⟨od.1, qty, spend⟩]
         spend := st.1.spend + spend },
       { st.2 with
          budget := st.2.budget - spend
          orders := fun s =>
            if s = od.1 then st.2.orders s ++ [⟨st.2.day, od.1, qty, spend⟩]
            else st.2.orders s })

/-- `Executor.execute`. -/
def Executor.execute (kb : Knowledge) (p : Plan) : ExecResult × Knowledge :=
  let r := p.orders.foldl exec_step (⟨[], 0⟩, kb)
  ({ r.1 with spend := round2 r.1.spend }, r.2)

/-! ## Analyzer (`src/automatic_manager/analyzer.py`)

`statistics.mean` and `statistics.pstdev` are exact on rationals except for
the final square root, so the mean and the population variance live in `ℚ`
and only the returned standard deviation is a real number. -/

/-- Effective demand series: `sales + lost_sales` per record (line 34; every
record stored by `record_outcome` carries a `sales` key, so the guard
`if 'sales' in r` never filters anything). -/
def effective_demand (hist : List DayRec) : List ℚ :=
  hist.map (fun r => (r.sales : ℚ) + (r.lost_sales : ℚ))

/-- `statistics.mean` on a nonempty list (callers branch on emptiness first). -/
def listMean (xs : List ℚ) : ℚ := xs.sum / (xs.length : ℚ)

/-- `statistics.pstdev` squared: the population variance. -/
def pvariance (xs : List ℚ) : ℚ :=
  ((xs.map (fun x => (x - listMean xs) ^ 2)).sum) / (xs.length : ℚ)

/-- `Analyzer._mean_std`.  The source compares `s > 1e-6` where
`s = sqrt(pvariance)`; since both sides are nonnegative this is equivalent
to `pvariance > 1e-12`, which keeps the branch decidable. -/
noncomputable def mean_std (xs : List ℚ) : ℚ × ℝ :=
  match xs with
  | [] => (0, 1)
  | [x] => (x, ((max 1 (|x| * (1/4)) : ℚ) : ℝ))
  | _ :: _ :: _ =>
    let m := listMean xs
    let v := pvariance xs
    (m, if (1/1000000000000 : ℚ) < v then Real.sqrt (v : ℝ)
        else ((max 1 (|m| * (1/4)) : ℚ) : ℝ))

/-- An anomaly record as the analyzer emits it. -/
structure AnomalyR where
  atype : AnomalyType
  z : ℝ
  today : ℚ
  mean : ℚ

open Classical

/-- The anomaly-detection step of `Analyzer.analyze` for one product
(lines 48-56): z-score of the latest effective demand against the forecast,
spike above the threshold, drop below its negation. -/
noncomputable def analyze_anomaly (thr : ℚ) (hist : List DayRec) : Option AnomalyR :=
  match hist.getLast? with
  | none => none
  | some last =>
    let eff := effective_demand hist
    let ms := mean_std eff
    let today : ℚ := (last.sales : ℚ) + (last.lost_sales : ℚ)
    let z : ℝ := ((today : ℝ) - (ms.1 : ℝ)) / (if (1/1000000 : ℝ) < ms.2 then ms.2 else 1)
    if (thr : ℝ) < z then some ⟨AnomalyType.spike, z, today, ms.1⟩
    else if z < -(thr : ℝ) then some ⟨AnomalyType.drop, z, today, ms.1⟩
    else none

/-- `Knowledge.store_anomaly` on the anomalies map: storing `None` pops the
key, storing a record overwrites it. -/
def store_anomaly (anoms : String → Option AnomalyR) (sku : String) (a : Option AnomalyR) :
    String → Option AnomalyR :=
  fun s => if s = sku then a else anoms s

/-- The z-score exactly as claim C6 words it: denominator `max(std, ε)`. -/
noncomputable def z_claim (hist : List DayRec) : ℝ :=
  let ms := mean_std (effective_demand hist)
  let today : ℚ := match hist.getLast? with
    | some r => (r.sales : ℚ) + (r.lost_sales : ℚ)
    | none => 0
  ((today : ℝ) - (ms.1 : ℝ)) / max ms.2 ((1 : ℝ)/1000000)

/-! ## Helper lemmas: rounding -/

lemma pyRound_intCast (n : ℤ) : pyRound (n : ℚ) = n := by
  simp [pyRound]

lemma pyRound_le_int {x : ℚ} {n : ℤ} (h : x ≤ (n : ℚ)) : pyRound x ≤ n := by
  have hfl : ⌊x⌋ ≤ n := by
    have := Int.floor_le_floor h
    simpa using this
  by_cases hfn : ⌊x⌋ = n
  · have hxn : (n : ℚ) ≤ x := by
      rw [← hfn]; exact Int.floor_le x
    have hx : x = (n : ℚ) := le_antisymm h hxn
    subst hx
    simp [pyRound_intCast]
  · have hlt : ⌊x⌋ + 1 ≤ n := by omega
    unfold pyRound
    dsimp only
    split_ifs <;> omega

lemma round2_le_int {x : ℚ} {n : ℤ} (h : x ≤ (n : ℚ)) : round2 x ≤ (n : ℚ) := by
  have h100 : x * 100 ≤ ((100 * n : ℤ) : ℚ) := by push_cast; linarith
  have := pyRound_le_int h100
  unfold round2
  rw [div_le_iff₀ (by norm_num : (0:ℚ) < 100)]
  calc (pyRound (x * 100) : ℚ) ≤ ((100 * n : ℤ) : ℚ) := by exact_mod_cast this
    _ = (n : ℚ) * 100 := by push_cast; ring

/-! ## Helper lemmas: pruning -/

lemma pruneStep_not_mem {acc : List (ℤ × Candidate)} {c : Candidate}
    (h : bucketOf c ∉ acc.map Prod.fst) : pruneStep acc c = acc ++ [(bucketOf c, c)] := by
  simp [pruneStep, h]

lemma foldl_pruneStep_eq (l : List Candidate) :
    ∀ acc : List (ℤ × Candidate), (acc.map Prod.fst ++ l.map bucketOf).Nodup →
      l.foldl pruneStep acc = acc ++ l.map (fun c => (bucketOf c, c)) := by
  induction l with
  | nil => intro acc _; simp
  | cons c t ih =>
    intro acc h
    have hb : bucketOf c ∉ acc.map Prod.fst := by
      rcases List.nodup_append.mp h with ⟨-, -, hdisj⟩
      intro hmem
      exact hdisj hmem (by simp)
    rw [List.foldl_cons, pruneStep_not_mem hb,
      ih (acc ++ [(bucketOf c, c)]) (by simpa [List.append_assoc] using h)]
    simp

lemma prune_eq_self {l : List Candidate} (h : (l.map bucketOf).Nodup) : prune l = l := by
  unfold prune
  rw [foldl_pruneStep_eq l [] (by simpa using h)]
  simp [Function.comp_def]

/-! ## Helper lemmas: candidate shapes -/

lemma candidate_utility_qty (F : RealFns) (kb : Knowledge) (sku : String) (q : ℤ) :
    (candidate_utility F kb sku q).qty = q := rfl

lemma candidate_utility_spend (F : RealFns) (kb : Knowledge) (sku : String) (q : ℤ) :
    (candidate_utility F kb sku q).spend =
      (q : ℚ) * (productOf sku).unit_cost +
        (if 0 < q then (productOf sku).order_fixed_cost else 0) := rfl

lemma sl_adjust_spends (F : RealFns) (kb : Knowledge) (sku : String) (l : List Candidate) :
    (sl_adjust F kb sku l).map Candidate.spend = l.map Candidate.spend := by
  unfold sl_adjust
  dsimp only
  split_ifs <;>
    simp [List.map_map, Function.comp_def, apply_ite Candidate.spend]

lemma sl_adjust_exists_map (F : RealFns) (kb : Knowledge) (sku : String) (l : List Candidate) :
    ∃ g : Candidate → Candidate, sl_adjust F kb sku l = l.map g ∧
      ∀ c, (g c).qty = c.qty ∧ (g c).spend = c.spend := by
  unfold sl_adjust
  dsimp only
  split_ifs
  · exact ⟨_, rfl, fun c => by by_cases h : c.qty = 0 <;> simp [h]⟩
  · exact ⟨_, rfl, fun c => by by_cases h : 0 < c.qty <;> simp [h]⟩
  · exact ⟨id, by simp, fun c => ⟨rfl, rfl⟩⟩

/-- The rounded spend levels of the candidate menu depend only on the
product's cost parameters. -/
def menuSpendLevels (p : Product) : List ℤ :=
  CANDIDATE_QTYS.map (fun q => pyRound ((q : ℚ) * p.unit_cost +
    (if 0 < q then p.order_fixed_cost else 0)))

lemma sl_adjust_buckets (F : RealFns) (kb : Knowledge) (sku : String) :
    ((sl_adjust F kb sku (CANDIDATE_QTYS.map (fun q => candidate_utility F kb sku q))).map
        bucketOf) = menuSpendLevels (productOf sku) := by
  have h1 : ∀ m : List Candidate, m.map bucketOf = (m.map Candidate.spend).map pyRound := by
    intro m; rw [List.map_map]; rfl
  rw [h1, sl_adjust_spends, List.map_map, List.map_map]
  rfl

lemma productOf_sku1 : productOf "SKU_001" = ⟨"Laptop", 20, 4, 1000, 550, 3/10, 50, 2, 4, 550⟩ :=
  rfl

lemma productOf_sku2 : productOf "SKU_002" = ⟨"Phone", 35, 8, 700, 350, 1/4, 45, 2, 5, 750⟩ :=
  rfl

lemma productOf_sku3 :
    productOf "SKU_003" = ⟨"Headphones", 55, 15, 120, 45, 2/25, 25, 1, 3, 550⟩ :=
  rfl

lemma productOf_sku4 : productOf "SKU_004" = ⟨"Mouse", 70, 18, 35, 8, 1/50, 15, 1, 2, 700⟩ :=
  rfl

lemma menuSpendLevels_nodup {e : String × Product} (he : e ∈ PRODUCTS) :
    (menuSpendLevels (productOf e.1)).Nodup := by
  simp only [PRODUCTS, List.mem_cons, List.not_mem_nil, or_false] at he
  rcases he with h | h | h | h <;> subst h <;>
    norm_num [menuSpendLevels, CANDIDATE_QTYS, productOf_sku1, productOf_sku2, productOf_sku3,
      productOf_sku4, pyRound]

/-- The candidate list built for an unblocked, non-overstocked product: its
pruning keys are pairwise distinct, so pruning keeps the whole list. -/
lemma prune_sl_adjust_eq {e : String × Product} (he : e ∈ PRODUCTS)
    (F : RealFns) (kb : Knowledge) :
    prune (sl_adjust F kb e.1 (CANDIDATE_QTYS.map (fun q => candidate_utility F kb e.1 q))) =
      sl_adjust F kb e.1 (CANDIDATE_QTYS.map (fun q => candidate_utility F kb e.1 q)) := by
  apply prune_eq_self
  rw [sl_adjust_buckets]
  exact menuSpendLevels_nodup he

/-! ## Helper lemmas: state threading through the per-product loop

During the loop of `Planner.plan` the knowledge base only mutates through
`block_orders`, and a product's own branch and candidates read blocks only
at its own key.  `UsesEq base k s` records that `k` agrees with `base` on
every field candidate generation reads, with blocks compared at `s` only. -/

def UsesEq (base k : Knowledge) (s : String) : Prop :=
  k.day = base.day ∧ k.stock_levels = base.stock_levels ∧
  k.pending_orders = base.pending_orders ∧ k.forecast = base.forecast ∧
  k.service_level = base.service_level ∧ k.anomalies = base.anomalies ∧
  k.safety_z = base.safety_z ∧ k.orders = base.orders ∧ k.blocks s = base.blocks s

lemma usesEq_refl (base : Knowledge) (s : String) : UsesEq base base s :=
  ⟨rfl, rfl, rfl, rfl, rfl, rfl, rfl, rfl, rfl⟩

lemma usesEq_block_orders {base k : Knowledge} {s : String} (h : UsesEq base k s)
    {sku : String} (hne : s ≠ sku) (d : ℤ) : UsesEq base (k.block_orders sku d) s := by
  obtain ⟨hd, hs, hp, hf, hsl, ha, hz, ho, hb⟩ := h
  exact ⟨hd, hs, hp, hf, hsl, ha, hz, ho, by simp [Knowledge.block_orders, hne, hb]⟩

lemma candidate_utility_congr {base k : Knowledge} {s : String} (h : UsesEq base k s)
    (F : RealFns) (q : ℤ) : candidate_utility F k s q = candidate_utility F base s q := by
  obtain ⟨hd, hs, hp, hf, hsl, ha, hz, ho, hb⟩ := h
  unfold candidate_utility Knowledge.get_stock_position Knowledge.get_stock
    Knowledge.get_last_order_qty
  rw [hf, hs, hp, hsl, ha, hz, ho]

lemma is_blocked_congr {base k : Knowledge} {s : String} (h : UsesEq base k s) :
    k.is_blocked s = base.is_blocked s := by
  obtain ⟨hd, -, -, -, -, -, -, -, hb⟩ := h
  unfold Knowledge.is_blocked
  rw [hb, hd]

lemma forecast_mean0_congr {base k : Knowledge} {s : String} (h : UsesEq base k s) :
    k.forecast_mean0 s = base.forecast_mean0 s := by
  obtain ⟨-, -, -, hf, -⟩ := h
  unfold Knowledge.forecast_mean0
  rw [hf]

lemma stock_position_congr {base k : Knowledge} {s : String} (h : UsesEq base k s) :
    k.get_stock_position s = base.get_stock_position s := by
  obtain ⟨-, hs, hp, -⟩ := h
  unfold Knowledge.get_stock_position Knowledge.get_stock
  rw [hs, hp]

lemma sl_adjust_congr {base k : Knowledge} {s : String} (h : UsesEq base k s)
    (F : RealFns) (l : List Candidate) : sl_adjust F k s l = sl_adjust F base s l := by
  obtain ⟨-, -, -, hf, hsl, -⟩ := h
  unfold sl_adjust
  rw [hf, hsl]

lemma overstock_hit_congr {base k : Knowledge} {e : String × Product} (h : UsesEq base k e.1) :
    overstock_hit k e = overstock_hit base e := by
  unfold overstock_hit
  rw [is_blocked_congr h, forecast_mean0_congr h, stock_position_congr h]

lemma candsFor_congr {base k : Knowledge} {e : String × Product} (h : UsesEq base k e.1)
    (F : RealFns) : candsFor F k e = candsFor F base e := by
  unfold candsFor
  rw [is_blocked_congr h, forecast_mean0_congr h, stock_position_congr h, sl_adjust_congr h,
    show (fun q => candidate_utility F k e.1 q) = (fun q => candidate_utility F base e.1 q) from
      funext (fun q => candidate_utility_congr h F q)]

lemma planStep_kb_usesEq {base : Knowledge} {st : PlanState} {e : String × Product} {s : String}
    (h : UsesEq base st.kb s) (hne : s ≠ e.1) (F : RealFns) :
    UsesEq base (planStep F st e).kb s := by
  unfold planStep
  dsimp only
  split_ifs with hov
  · exact usesEq_block_orders h hne _
  · exact h

/-- The per-product loop produces one `sku_cands` entry per catalog product,
each computed as if from the loop-entry knowledge base. -/
lemma foldl_planStep_cands (F : RealFns) (base : Knowledge) :
    ∀ (l : List (String × Product)) (st : PlanState),
      (l.map Prod.fst).Nodup →
      (∀ s ∈ l.map Prod.fst, UsesEq base st.kb s) →
      (l.foldl (planStep F) st).cands = st.cands ++ l.map (fun e => (e.1, candsFor F base e)) := by
  intro l
  induction l with
  | nil => intro st _ _; simp
  | cons e t ih =>
    intro st hnd hag
    have he : UsesEq base st.kb e.1 := hag e.1 (by simp)
    rw [List.map_cons] at hnd
    obtain ⟨hnotmem, hndt⟩ := List.nodup_cons.mp hnd
    rw [List.foldl_cons, ih (planStep F st e) hndt ?_]
    · simp [planStep, candsFor_congr he F]
    · intro s hs
      have hne : s ≠ e.1 := fun hc => hnotmem (hc ▸ hs)
      exact planStep_kb_usesEq (hag s (by simp [hs])) hne F

/-- The stop-order entries the loop emits. -/
lemma foldl_planStep_stops (F : RealFns) (base : Knowledge) :
    ∀ (l : List (String × Product)) (st : PlanState),
      (l.map Prod.fst).Nodup →
      (∀ s ∈ l.map Prod.fst, UsesEq base st.kb s) →
      (l.foldl (planStep F) st).stops = st.stops ++
        l.flatMap (fun e => if overstock_hit base e then [⟨e.1, STOP_ORDERS_DAYS⟩] else []) := by
  intro l
  induction l with
  | nil => intro st _ _; simp
  | cons e t ih =>
    intro st hnd hag
    have he : UsesEq base st.kb e.1 := hag e.1 (by simp)
    rw [List.map_cons] at hnd
    obtain ⟨hnotmem, hndt⟩ := List.nodup_cons.mp hnd
    rw [List.foldl_cons, ih (planStep F st e) hndt ?_]
    · simp [planStep, overstock_hit_congr he]
    · intro s hs
      have hne : s ≠ e.1 := fun hc => hnotmem (hc ▸ hs)
      exact planStep_kb_usesEq (hag s (by simp [hs])) hne F

/-- The blocked-product list the loop accumulates. -/
lemma foldl_planStep_blocked (F : RealFns) (base : Knowledge) :
    ∀ (l : List (String × Product)) (st : PlanState),
      (l.map Prod.fst).Nodup →
      (∀ s ∈ l.map Prod.fst, UsesEq base st.kb s) →
      (l.foldl (planStep F) st).blocked = st.blocked ++
        l.flatMap (fun e => if base.is_blocked e.1 then [e.1] else []) := by
  intro l
  induction l with
  | nil => intro st _ _; simp
  | cons e t ih =>
    intro st hnd hag
    have he : UsesEq base st.kb e.1 := hag e.1 (by simp)
    rw [List.map_cons] at hnd
    obtain ⟨hnotmem, hndt⟩ := List.nodup_cons.mp hnd
    rw [List.foldl_cons, ih (planStep F st e) hndt ?_]
    · simp [planStep, is_blocked_congr he]
    · intro s hs
      have hne : s ≠ e.1 := fun hc => hnotmem (hc ▸ hs)
      exact planStep_kb_usesEq (hag s (by simp [hs])) hne F

/-- A key not processed by the loop keeps its block state. -/
lemma foldl_planStep_blocks_stable (F : RealFns) :
    ∀ (l : List (String × Product)) (st : PlanState) (s : String),
      s ∉ l.map Prod.fst →
      ((l.foldl (planStep F) st).kb).blocks s = st.kb.blocks s := by
  intro l
  induction l with
  | nil => intro st s _; rfl
  | cons e t ih =>
    intro st s hs
    rw [List.map_cons] at hs
    simp only [List.mem_cons, not_or] at hs
    obtain ⟨hne, hst⟩ := hs
    rw [List.foldl_cons, ih (planStep F st e) s hst]
    unfold planStep
    dsimp only
    split_ifs with hov
    · simp [Knowledge.block_orders, hne]
    · rfl

/-- A product frozen by the overstock branch leaves the loop with its block
set to `day + max 0 STOP_ORDERS_DAYS`. -/
lemma foldl_planStep_blocks_hit (F : RealFns) (base : Knowledge) :
    ∀ (l : List (String × Product)) (st : PlanState) (e : String × Product),
      (l.map Prod.fst).Nodup →
      (∀ s ∈ l.map Prod.fst, UsesEq base st.kb s) →
      e ∈ l → overstock_hit base e = true →
      ((l.foldl (planStep F) st).kb).blocks e.1 =
        some (base.day + max 0 STOP_ORDERS_DAYS) := by
  intro l
  induction l with
  | nil => intro st e _ _ he _; simp at he
  | cons a t ih =>
    intro st e hnd hag he hov
    rw [List.map_cons] at hnd
    obtain ⟨hnotmem, hndt⟩ := List.nodup_cons.mp hnd
    rcases List.mem_cons.mp he with rfl | het
    · have hea : UsesEq base st.kb e.1 := hag e.1 (by simp)
      rw [List.foldl_cons, foldl_planStep_blocks_stable F t _ e.1 hnotmem]
      unfold planStep
      dsimp only
      rw [overstock_hit_congr hea, hov]
      simp [Knowledge.block_orders, hea.1]
    · have hne : e.1 ∈ t.map Prod.fst := List.mem_map_of_mem Prod.fst het
      rw [List.foldl_cons]
      refine ih (planStep F st a) e hndt ?_ het hov
      intro s hs
      have hnes : s ≠ a.1 := fun hc => hnotmem (hc ▸ hs)
      exact planStep_kb_usesEq (hag s (by simp [hs])) hnes F

/-! ## Helper lemmas: the dynamic-z pass and the built state -/

lemma apply_dynamic_z_is_blocked (kb : Knowledge) (s : String) :
    (apply_dynamic_z kb).is_blocked s = kb.is_blocked s := rfl

lemma apply_dynamic_z_forecast_mean0 (kb : Knowledge) (s : String) :
    (apply_dynamic_z kb).forecast_mean0 s = kb.forecast_mean0 s := rfl

lemma apply_dynamic_z_stock_position (kb : Knowledge) (s : String) :
    (apply_dynamic_z kb).get_stock_position s = kb.get_stock_position s := rfl

lemma apply_dynamic_z_day (kb : Knowledge) : (apply_dynamic_z kb).day = kb.day := rfl

lemma apply_dynamic_z_overstock_hit (kb : Knowledge) (e : String × Product) :
    overstock_hit (apply_dynamic_z kb) e = overstock_hit kb e := rfl

lemma products_keys_nodup : (PRODUCTS.map Prod.fst).Nodup := by decide

lemma planState_cands (F : RealFns) (kb : Knowledge) :
    (planState F kb).cands =
      PRODUCTS.map (fun e => (e.1, candsFor F (apply_dynamic_z kb) e)) := by
  unfold planState
  rw [foldl_planStep_cands F (apply_dynamic_z kb) PRODUCTS _ products_keys_nodup
    (fun s _ => usesEq_refl _ s)]
  simp

lemma planState_stops (F : RealFns) (kb : Knowledge) :
    (planState F kb).stops = PRODUCTS.flatMap
      (fun e => if overstock_hit (apply_dynamic_z kb) e then [⟨e.1, STOP_ORDERS_DAYS⟩] else []) := by
  unfold planState
  rw [foldl_planStep_stops F (apply_dynamic_z kb) PRODUCTS _ products_keys_nodup
    (fun s _ => usesEq_refl _ s)]
  simp

lemma planState_blocked (F : RealFns) (kb : Knowledge) :
    (planState F kb).blocked = PRODUCTS.flatMap
      (fun e => if (apply_dynamic_z kb).is_blocked e.1 then [e.1] else []) := by
  unfold planState
  rw [foldl_planStep_blocked F (apply_dynamic_z kb) PRODUCTS _ products_keys_nodup
    (fun s _ => usesEq_refl _ s)]
  simp

lemma planState_blocks_hit (F : RealFns) (kb : Knowledge) {e : String × Product}
    (he : e ∈ PRODUCTS) (hov : overstock_hit (apply_dynamic_z kb) e = true) :
    ((planState F kb).kb).blocks e.1 =
      some ((apply_dynamic_z kb).day + max 0 STOP_ORDERS_DAYS) := by
  unfold planState
  exact foldl_planStep_blocks_hit F (apply_dynamic_z kb) PRODUCTS _ e products_keys_nodup
    (fun s _ => usesEq_refl _ s) he hov

/-! ## Helper lemmas: result extraction -/

lemma chosenOf_nohit {vals : ℕ → Option ℚ} {cands : List Candidate}
    (h : ∀ i, val_hits (vals i) = false) :
    chosenOf vals cands = cands.headD zero_candidate := by
  unfold chosenOf
  rw [List.find?_eq_none.mpr (fun i _ => by simp [h i])]

lemma find_range_first {p : ℕ → Bool} {n j : ℕ} (hj : j < n) (hpj : p j = true)
    (hmin : ∀ i, i < j → p i = false) : (List.range n).find? p = some j := by
  induction n with
  | zero => omega
  | succ n ih =>
    rw [List.range_succ, List.find?_append]
    by_cases h : j = n
    · subst h
      have : (List.range j).find? p = none :=
        List.find?_eq_none.mpr (fun i hi => by
          simp [hmin i (List.mem_range.mp hi)])
      simp [this, hpj]
    · have hj' : j < n := by omega
      rw [ih hj']
      rfl

lemma sum_range_single {n j : ℕ} (c : ℚ) (hj : j < n) :
    ((List.range n).map (fun i => if i = j then c else 0)).sum = c := by
  induction n with
  | zero => omega
  | succ n ih =>
    rw [List.range_succ, List.map_append, List.sum_append]
    by_cases h : j = n
    · subst h
      have hz : ∀ i ∈ List.range j, (if i = j then c else 0) = 0 := by
        intro i hi
        exact if_neg (by have := List.mem_range.mp hi; omega)
      rw [List.map_congr_left hz]
      simp
    · have hj' : j < n := by omega
      rw [ih hj']
      have hne : n ≠ j := fun hc => h hc.symm
      simp [hne]

lemma chosenOf_onehot {v : ℕ → Option ℚ} {cands : List Candidate} {j : ℕ}
    (hj : j < cands.length)
    (hv : ∀ i, i < cands.length → v i = some (if i = j then 1 else 0)) :
    chosenOf v cands = cands.getD j zero_candidate := by
  unfold chosenOf
  rw [find_range_first hj ?_ ?_]
  · rw [hv j hj, if_pos rfl]
    norm_num [val_hits]
  · intro i hij
    have hi : i < cands.length := by omega
    rw [hv i hi, if_neg (by omega)]
    simp [val_hits]

lemma onehot_spend_sum {v : ℕ → Option ℚ} {cands : List Candidate} {j : ℕ}
    (hj : j < cands.length)
    (hv : ∀ i, i < cands.length → v i = some (if i = j then 1 else 0)) :
    ((List.range cands.length).map
        (fun i => ((v i).getD 0) * (cands.getD i zero_candidate).spend)).sum =
      (cands.getD j zero_candidate).spend := by
  have hcong : ∀ i ∈ List.range cands.length,
      ((v i).getD 0) * (cands.getD i zero_candidate).spend =
        (if i = j then (cands.getD j zero_candidate).spend else 0) := by
    intro i hi
    rw [hv i (List.mem_range.mp hi)]
    by_cases h : i = j <;> simp [h]
  rw [List.map_congr_left hcong, sum_range_single _ hj]

/-! ## Helper lemmas: plan assembly -/

/-- The total spend of the chosen candidates, summed over all products, as
accumulated by the extraction loop of `Planner.plan`. -/
def plan_total_spend (F : RealFns) (kb : Knowledge) (vals : String → ℕ → Option ℚ) : ℚ :=
  ((planState F kb).cands.map (fun pr => (chosenOf (vals pr.1) pr.2).spend)).sum

lemma plan_meta_spend (F : RealFns) (kb : Knowledge) (vals : String → ℕ → Option ℚ) :
    (Planner.plan F kb vals).1.meta.spend = round2 (plan_total_spend F kb vals) := by
  unfold Planner.plan plan_total_spend
  dsimp only
  rw [List.map_map]
  rfl

lemma plan_orders_keys_eq (F : RealFns) (kb : Knowledge) (vals : String → ℕ → Option ℚ) :
    (Planner.plan F kb vals).1.orders.map Prod.fst = PRODUCTS.map Prod.fst := by
  unfold Planner.plan
  dsimp only
  rw [List.map_map, List.map_map, planState_cands, List.map_map]
  rfl

lemma plan_orders_mem {F : RealFns} {kb : Knowledge} {vals : String → ℕ → Option ℚ}
    {sku : String} {cands : List Candidate} (h : (sku, cands) ∈ (planState F kb).cands) :
    (sku, (⟨(chosenOf (vals sku) cands).qty, (chosenOf (vals sku) cands).utility,
      (chosenOf (vals sku) cands).spend⟩ : OrderEntry)) ∈ (Planner.plan F kb vals).1.orders := by
  unfold Planner.plan
  dsimp only
  rw [List.map_map]
  exact List.mem_map_of_mem _ h

lemma chosenOf_singleton (v : ℕ → Option ℚ) (c : Candidate) : chosenOf v [c] = c := by
  unfold chosenOf
  rcases hf : (List.range ([c] : List Candidate).length).find? (fun i => val_hits (v i))
    with - | i
  · rfl
  · have hi : i ∈ List.range ([c] : List Candidate).length := List.mem_of_find?_eq_some hf
    have h0 : i = 0 := by simpa using hi
    subst h0
    rfl

lemma candsFor_blocked {e : String × Product} (F : RealFns) (kb : Knowledge)
    (h : kb.is_blocked e.1 = true) : candsFor F kb e = [zero_candidate] := by
  unfold candsFor
  simp [h]

lemma candsFor_overstock {e : String × Product} (F : RealFns) (kb : Knowledge)
    (h1 : kb.is_blocked e.1 = false)
    (h2 : is_overstock (kb.forecast_mean0 e.1) (kb.get_stock_position e.1) = true) :
    candsFor F kb e = [zero_candidate] := by
  unfold candsFor
  simp [h1, h2]

lemma candsFor_zero {e : String × Product} (he : e ∈ PRODUCTS) (F : RealFns) (kb : Knowledge) :
    ((candsFor F kb e).headD zero_candidate).qty = 0 ∧
    ((candsFor F kb e).headD zero_candidate).spend = 0 ∧
    ∃ c ∈ candsFor F kb e, c.qty = 0 ∧ c.spend = 0 := by
  unfold candsFor
  split_ifs with h1 h2
  · exact ⟨rfl, rfl, zero_candidate, by simp, rfl, rfl⟩
  · exact ⟨rfl, rfl, zero_candidate, by simp, rfl, rfl⟩
  · rw [prune_sl_adjust_eq he]
    obtain ⟨g, hg, hgp⟩ := sl_adjust_exists_map F kb e.1
      (CANDIDATE_QTYS.map (fun q => candidate_utility F kb e.1 q))
    rw [hg]
    have hmenu : (CANDIDATE_QTYS.map (fun q => candidate_utility F kb e.1 q)).map g =
        g (candidate_utility F kb e.1 0) ::
          (([25, 50, 75, 100, 150, 200, 250] : List ℤ).map
            (fun q => candidate_utility F kb e.1 q)).map g := by
      simp [CANDIDATE_QTYS]
    rw [hmenu]
    have hq : (g (candidate_utility F kb e.1 0)).qty = 0 :=
      (hgp _).1.trans (candidate_utility_qty F kb e.1 0)
    have hsp : (g (candidate_utility F kb e.1 0)).spend = 0 := by
      rw [(hgp _).2, candidate_utility_spend]
      norm_num
    exact ⟨hq, hsp, g (candidate_utility F kb e.1 0), by simp, hq, hsp⟩

/-! ## Claim theorems -/

/-- C1: for every knowledge-store state and every solver outcome consistent
with the stated MILP (no solution, or a feasible one-hot assignment), the
total spend of the produced plan — the sum of the chosen candidates' spend
over all products, reported in `plan['meta']['spend']` — is at most the
configured daily budget limit. -/
theorem plan_spend_within_budget (F : RealFns) (kb : Knowledge)
    (vals : String → ℕ → Option ℚ)
    (h : NoSolution vals ∨ MilpFeasible (planState F kb).cands vals) :
    plan_total_spend F kb vals ≤ DAILY_BUDGET_LIMIT ∧
    (Planner.plan F kb vals).1.meta.spend ≤ DAILY_BUDGET_LIMIT := by
  have htot : plan_total_spend F kb vals ≤ DAILY_BUDGET_LIMIT := by
    rcases h with hno | ⟨hone, hbud⟩
    · have hz : plan_total_spend F kb vals = 0 := by
        unfold plan_total_spend
        rw [planState_cands, List.map_map]
        apply List.sum_eq_zero
        intro x hx
        obtain ⟨e, he, rfl⟩ := List.mem_map.mp hx
        have hfall : chosenOf (vals e.1) (candsFor F (apply_dynamic_z kb) e) =
            (candsFor F (apply_dynamic_z kb) e).headD zero_candidate :=
          chosenOf_nohit (fun i => by rw [hno e.1 i]; rfl)
        simpa [Function.comp, hfall] using (candsFor_zero he F (apply_dynamic_z kb)).2.1
      rw [hz]
      norm_num [DAILY_BUDGET_LIMIT]
    · have heq : plan_total_spend F kb vals = milp_spend (planState F kb).cands vals := by
        unfold plan_total_spend milp_spend
        congr 1
        apply List.map_congr_left
        intro pr hpr
        obtain ⟨j, hj, hv⟩ := hone pr hpr
        rw [chosenOf_onehot hj hv, onehot_spend_sum hj hv]
      rw [heq]
      exact hbud
  refine ⟨htot, ?_⟩
  rw [plan_meta_spend]
  have h1 : plan_total_spend F kb vals ≤ ((30000 : ℤ) : ℚ) := by
    simpa [DAILY_BUDGET_LIMIT] using htot
  have := round2_le_int h1
  simpa [DAILY_BUDGET_LIMIT] using this

/-- C1 witness: at the initial knowledge base with a no-solution backend
outcome, the produced plan's reported spend respects the budget. -/
theorem plan_spend_within_budget_witness :
    (NoSolution (fun _ _ => none) ∨
      MilpFeasible (planState ⟨fun _ => 0, fun _ => 0, fun _ => 0, fun _ _ => 0, 0⟩
        init_knowledge).cands (fun _ _ => none)) ∧
    (plan_total_spend ⟨fun _ => 0, fun _ => 0, fun _ => 0, fun _ _ => 0, 0⟩
        init_knowledge (fun _ _ => none) ≤ DAILY_BUDGET_LIMIT ∧
      (Planner.plan ⟨fun _ => 0, fun _ => 0, fun _ => 0, fun _ _ => 0, 0⟩
        init_knowledge (fun _ _ => none)).1.meta.spend ≤ DAILY_BUDGET_LIMIT) :=
  ⟨Or.inl (fun _ _ => rfl),
   plan_spend_within_budget _ init_knowledge _ (Or.inl (fun _ _ => rfl))⟩

/-- C2: every produced plan has exactly one `orders` entry per catalog
product — the order keys are exactly the catalog keys, which are distinct —
including blocked products. -/
theorem plan_one_entry_per_product (F : RealFns) (kb : Knowledge)
    (vals : String → ℕ → Option ℚ) :
    (Planner.plan F kb vals).1.orders.map Prod.fst = PRODUCTS.map Prod.fst ∧
    (PRODUCTS.map Prod.fst).Nodup :=
  ⟨plan_orders_keys_eq F kb vals, products_keys_nodup⟩

/-- C3: a product whose order block is active is given only the zero
candidate, and its plan entry is quantity 0 with zero spend and zero
utility (key uniqueness pins the entry). -/
theorem plan_blocked_product_zero (F : RealFns) (kb : Knowledge)
    (vals : String → ℕ → Option ℚ) {sku : String}
    (hmem : sku ∈ PRODUCTS.map Prod.fst) (hb : kb.is_blocked sku = true) :
    (sku, [zero_candidate]) ∈ (planState F kb).cands ∧
    (sku, (⟨0, 0, 0⟩ : OrderEntry)) ∈ (Planner.plan F kb vals).1.orders ∧
    ((Planner.plan F kb vals).1.orders.map Prod.fst).Nodup := by
  obtain ⟨e, he, hfst⟩ := List.mem_map.mp hmem
  subst hfst
  have hb1 : (apply_dynamic_z kb).is_blocked e.1 = true := by
    rw [apply_dynamic_z_is_blocked]
    exact hb
  have hc : candsFor F (apply_dynamic_z kb) e = [zero_candidate] :=
    candsFor_blocked F (apply_dynamic_z kb) hb1
  have hcm : (e.1, [zero_candidate]) ∈ (planState F kb).cands := by
    rw [planState_cands]
    have := List.mem_map_of_mem (fun e : String × Product =>
      (e.1, candsFor F (apply_dynamic_z kb) e)) he
    simpa [hc] using this
  refine ⟨hcm, ?_, ?_⟩
  · have := @plan_orders_mem F kb vals e.1 [zero_candidate] hcm
    simpa [chosenOf_singleton, zero_candidate] using this
  · rw [plan_orders_keys_eq]
    exact products_keys_nodup

/-- C3 witness. -/
theorem plan_blocked_product_zero_witness :
    ("SKU_001" ∈ PRODUCTS.map Prod.fst ∧
      Knowledge.is_blocked
        { init_knowledge with blocks := fun s => if s = "SKU_001" then some 5 else none }
        "SKU_001" = true) ∧
    (("SKU_001", [zero_candidate]) ∈
      (planState ⟨fun _ => 0, fun _ => 0, fun _ => 0, fun _ _ => 0, 0⟩
        { init_knowledge with blocks := fun s => if s = "SKU_001" then some 5 else none }).cands ∧
    ("SKU_001", (⟨0, 0, 0⟩ : OrderEntry)) ∈
      (Planner.plan ⟨fun _ => 0, fun _ => 0, fun _ => 0, fun _ _ => 0, 0⟩
        { init_knowledge with blocks := fun s => if s = "SKU_001" then some 5 else none }
        (fun _ _ => none)).1.orders ∧
    ((Planner.plan ⟨fun _ => 0, fun _ => 0, fun _ => 0, fun _ _ => 0, 0⟩
        { init_knowledge with blocks := fun s => if s = "SKU_001" then some 5 else none }
        (fun _ _ => none)).1.orders.map Prod.fst).Nodup) :=
  ⟨⟨by simp [PRODUCTS], rfl⟩,
   plan_blocked_product_zero _ _ _ (by simp [PRODUCTS]) rfl⟩

/-- C4: for an unblocked product the stored candidate list always retains a
zero-quantity, zero-spend candidate, and if the solver marks none of the
product's candidates as selected the extraction falls back to an order of
quantity 0 with zero spend. -/
theorem plan_zero_fallback (F : RealFns) (kb : Knowledge)
    (vals : String → ℕ → Option ℚ) {sku : String}
    (hmem : sku ∈ PRODUCTS.map Prod.fst) (hnb : kb.is_blocked sku = false) :
    (∃ cands, (sku, cands) ∈ (planState F kb).cands ∧
      ∃ c ∈ cands, c.qty = 0 ∧ c.spend = 0) ∧
    ((∀ i, val_hits (vals sku i) = false) →
      ∃ e : OrderEntry, (sku, e) ∈ (Planner.plan F kb vals).1.orders ∧
        e.qty = 0 ∧ e.spend = 0) := by
  obtain ⟨e, he, hfst⟩ := List.mem_map.mp hmem
  subst hfst
  have hcm : (e.1, candsFor F (apply_dynamic_z kb) e) ∈ (planState F kb).cands := by
    rw [planState_cands]
    exact List.mem_map_of_mem (fun e : String × Product =>
      (e.1, candsFor F (apply_dynamic_z kb) e)) he
  obtain ⟨hhq, hhs, hzm⟩ := candsFor_zero he F (apply_dynamic_z kb)
  refine ⟨⟨_, hcm, hzm⟩, ?_⟩
  intro hno
  refine ⟨⟨(chosenOf (vals e.1) (candsFor F (apply_dynamic_z kb) e)).qty,
    (chosenOf (vals e.1) (candsFor F (apply_dynamic_z kb) e)).utility,
    (chosenOf (vals e.1) (candsFor F (apply_dynamic_z kb) e)).spend⟩,
    plan_orders_mem hcm, ?_, ?_⟩
  · rw [chosenOf_nohit hno]
    exact hhq
  · rw [chosenOf_nohit hno]
    exact hhs

/-- C4 witness. -/
theorem plan_zero_fallback_witness :
    ("SKU_001" ∈ PRODUCTS.map Prod.fst ∧
      init_knowledge.is_blocked "SKU_001" = false) ∧
    ((∃ cands, ("SKU_001", cands) ∈
        (planState ⟨fun _ => 0, fun _ => 0, fun _ => 0, fun _ _ => 0, 0⟩
          init_knowledge).cands ∧ ∃ c ∈ cands, c.qty = 0 ∧ c.spend = 0) ∧
    ((∀ i, val_hits ((fun (_ : String) (_ : ℕ) => (none : Option ℚ)) "SKU_001" i) = false) →
      ∃ e : OrderEntry, ("SKU_001", e) ∈
        (Planner.plan ⟨fun _ => 0, fun _ => 0, fun _ => 0, fun _ _ => 0, 0⟩
          init_knowledge (fun _ _ => none)).1.orders ∧ e.qty = 0 ∧ e.spend = 0)) :=
 by
  constructor
  · exact ⟨by simp [PRODUCTS], rfl⟩
  · exact @plan_zero_fallback ⟨fun _ => 0, fun _ => 0, fun _ => 0, fun _ _ => 0, 0⟩
      init_knowledge (fun _ _ => none) "SKU_001" (by simp [PRODUCTS]) rfl

/-! ## Claim C5: the newsvendor computation -/

/-- The expected-sales/stockout computation exactly as claim C5 words it:
when σ is negligible, `(min(μ, A), max(0, μ − sales))` with no
normal-distribution contribution; otherwise the closed form with
`clamp(·, 0, A)` and `z′ = (A − μ)/σ`. -/
def spec_expected_sales_stockout (F : RealFns) (mu sigma available : ℚ) : ℚ × ℚ :=
  if sigma ≤ 1/1000000 then
    (min mu available, max 0 (mu - min mu available))
  else
    let zp := (available - mu) / sigma
    let es := max 0 (min available
      (mu * norm_cdf F zp + available * (1 - norm_cdf F zp) - sigma * norm_pdf F zp))
    (es, max 0 (mu - es))

/-- C5: for every μ ≥ 0, every σ and every A ≥ 0, the code's
`_expected_sales_stockout` returns exactly what the claim states, in both
the negligible-σ branch and the closed-form branch. -/
theorem expected_sales_stockout_spec (F : RealFns) (mu sigma available : ℚ)
    (hmu : 0 ≤ mu) (hav : 0 ≤ available) :
    expected_sales_stockout F mu sigma available =
      spec_expected_sales_stockout F mu sigma available := by
  unfold expected_sales_stockout spec_expected_sales_stockout
  dsimp only
  split_ifs with h
  · rw [max_eq_right (le_min hmu hav)]
  · rfl

/-- C5 witness. -/
theorem expected_sales_stockout_spec_witness :
    ((0 : ℚ) ≤ 3 ∧ (0 : ℚ) ≤ 2) ∧
    expected_sales_stockout ⟨fun _ => 0, fun _ => 0, fun _ => 0, fun _ _ => 0, 0⟩ 3 0 2 =
      spec_expected_sales_stockout ⟨fun _ => 0, fun _ => 0, fun _ => 0, fun _ _ => 0, 0⟩ 3 0 2 :=
  ⟨⟨by norm_num, by norm_num⟩,
   expected_sales_stockout_spec _ 3 0 2 (by norm_num) (by norm_num)⟩

/-! ## Claim C8: the overstock policy -/

/-- C8: the overstock check never fires for mean demand ≤ 1; otherwise it
fires exactly when days-of-cover exceeds the configured threshold (e.g.
mean 10, stock position 500: cover 50 > 45); and a product it hits is
frozen for `STOP_ORDERS_DAYS` days, gets a stop-order entry in the plan,
and only the zero-quantity candidate is considered for it this cycle. -/
theorem overstock_policy (F : RealFns) (kb : Knowledge) (vals : String → ℕ → Option ℚ)
    {sku : String} (hmem : sku ∈ PRODUCTS.map Prod.fst)
    (hnb : kb.is_blocked sku = false)
    (hov : is_overstock (kb.forecast_mean0 sku) (kb.get_stock_position sku) = true) :
    (∀ m : ℚ, ∀ s : ℤ, m ≤ 1 → is_overstock m s = false) ∧
    (∀ m : ℚ, ∀ s : ℤ, 1 < m →
      (is_overstock m s = true ↔ OVERSTOCK_DAYS_OF_COVER < (s : ℤ) / (m : ℚ))) ∧
    is_overstock 10 500 = true ∧
    (⟨sku, STOP_ORDERS_DAYS⟩ : StopOrder) ∈ (Planner.plan F kb vals).1.stop_orders ∧
    (Planner.plan F kb vals).2.blocks sku = some (kb.day + STOP_ORDERS_DAYS) ∧
    (sku, [zero_candidate]) ∈ (planState F kb).cands := by
  obtain ⟨e, he, hfst⟩ := List.mem_map.mp hmem
  subst hfst
  have hhit : overstock_hit (apply_dynamic_z kb) e = true := by
    rw [apply_dynamic_z_overstock_hit]
    unfold overstock_hit
    rw [hnb, hov]
    rfl
  have hnb1 : (apply_dynamic_z kb).is_blocked e.1 = false := by
    rw [apply_dynamic_z_is_blocked]; exact hnb
  have hov1 : is_overstock ((apply_dynamic_z kb).forecast_mean0 e.1)
      ((apply_dynamic_z kb).get_stock_position e.1) = true := by
    rw [apply_dynamic_z_forecast_mean0, apply_dynamic_z_stock_position]; exact hov
  refine ⟨?_, ?_, ?_, ?_, ?_, ?_⟩
  · intro m s h
    simp [is_overstock, h]
  · intro m s h
    have : ¬ m ≤ 1 := not_le.mpr h
    simp [is_overstock, this]
  · norm_num [is_overstock, OVERSTOCK_DAYS_OF_COVER]
  · show _ ∈ (planState F kb).stops
    rw [planState_stops]
    exact List.mem_flatMap.mpr ⟨e, he, by rw [hhit]; simp⟩
  · show ((planState F kb).kb).blocks e.1 = _
    rw [planState_blocks_hit F kb he hhit, apply_dynamic_z_day]
    norm_num [STOP_ORDERS_DAYS]
  · rw [planState_cands]
    have := List.mem_map_of_mem (fun e : String × Product =>
      (e.1, candsFor F (apply_dynamic_z kb) e)) he
    simpa [candsFor_overstock F (apply_dynamic_z kb) hnb1 hov1] using this

/-- C8 witness: a product with forecast mean 10 and stock position 500 is
frozen. -/
theorem overstock_policy_witness :
    ("SKU_001" ∈ PRODUCTS.map Prod.fst ∧
      Knowledge.is_blocked
        { init_knowledge with
            forecast := fun s => if s = "SKU_001" then some ⟨10, 4, "moving_average"⟩ else none
            stock_levels := fun s => if s = "SKU_001" then 500 else 0 } "SKU_001" = false ∧
      is_overstock
        (Knowledge.forecast_mean0
          { init_knowledge with
              forecast := fun s => if s = "SKU_001" then some ⟨10, 4, "moving_average"⟩ else none
              stock_levels := fun s => if s = "SKU_001" then 500 else 0 } "SKU_001")
        (Knowledge.get_stock_position
          { init_knowledge with
              forecast := fun s => if s = "SKU_001" then some ⟨10, 4, "moving_average"⟩ else none
              stock_levels := fun s => if s = "SKU_001" then 500 else 0 } "SKU_001") = true) ∧
    ((⟨"SKU_001", STOP_ORDERS_DAYS⟩ : StopOrder) ∈
      (Planner.plan ⟨fun _ => 0, fun _ => 0, fun _ => 0, fun _ _ => 0, 0⟩
        { init_knowledge with
            forecast := fun s => if s = "SKU_001" then some ⟨10, 4, "moving_average"⟩ else none
            stock_levels := fun s => if s = "SKU_001" then 500 else 0 }
        (fun _ _ => none)).1.stop_orders) := by
  have hov : is_overstock
      (Knowledge.forecast_mean0
        { init_knowledge with
            forecast := fun s => if s = "SKU_001" then some ⟨10, 4, "moving_average"⟩ else none
            stock_levels := fun s => if s = "SKU_001" then 500 else 0 } "SKU_001")
      (Knowledge.get_stock_position
        { init_knowledge with
            forecast := fun s => if s = "SKU_001" then some ⟨10, 4, "moving_average"⟩ else none
            stock_levels := fun s => if s = "SKU_001" then 500 else 0 } "SKU_001") = true := by
    norm_num [is_overstock, Knowledge.forecast_mean0, Knowledge.get_stock_position,
      Knowledge.get_stock, OVERSTOCK_DAYS_OF_COVER, init_knowledge]
  refine ⟨⟨by simp [PRODUCTS], rfl, hov⟩, ?_⟩
  exact (@overstock_policy ⟨fun _ => 0, fun _ => 0, fun _ => 0, fun _ _ => 0, 0⟩
    { init_knowledge with
        forecast := fun s => if s = "SKU_001" then some ⟨10, 4, "moving_average"⟩ else none
        stock_levels := fun s => if s = "SKU_001" then 500 else 0 }
    (fun _ _ => none) "SKU_001" (by simp [PRODUCTS]) rfl hov).2.2.2.1

/-! ## Claim C9: the executor's budget re-validation -/

/-- A plan whose two orders each fit the daily limit but jointly exceed it:
25 laptops (spend 13800) and 50 phones (spend 17545), total 31345. -/
def overrun_plan : Plan where
  day := 0
  orders := [("SKU_001", ⟨25, 0, 13800⟩), ("SKU_002", ⟨50, 0, 17545⟩)]
  stop_orders := []
  meta := ⟨30000, 31345, 0, []⟩

/-- C9 (code-bug evidence): `Knowledge.daily_budget_spent` is reset each day
but never incremented, so the executor's per-order check compares each
order against the full daily limit and commits a total spend of 31345,
exceeding the 30000 daily budget limit, contrary to the re-validation the
spec describes and to the source's own "hard safety" comment. -/
theorem executor_budget_overrun :
    (Executor.execute init_knowledge overrun_plan).1.spend = 31345 ∧
    DAILY_BUDGET_LIMIT < (Executor.execute init_knowledge overrun_plan).1.spend ∧
    (Executor.execute init_knowledge overrun_plan).1.orders_placed.length = 2 := by
  norm_num [Executor.execute, overrun_plan, exec_step, init_knowledge, productOf_sku1,
    productOf_sku2, DAILY_BUDGET_LIMIT, INITIAL_BUDGET, round2, pyRound]

/-! ## Claim C10: the optimizer's budget cap is the static constant -/

/-- C10: the reported `meta.budget_limit` is the configured
`DAILY_BUDGET_LIMIT` constant, and the knowledge store's `budget` field has
no effect on the produced plan (in particular on which candidates are
chosen). -/
theorem budget_limit_static (F : RealFns) (kb : Knowledge)
    (vals : String → ℕ → Option ℚ) (b : ℚ) :
    (Planner.plan F kb vals).1.meta.budget_limit = DAILY_BUDGET_LIMIT ∧
    (Planner.plan F { kb with budget := b } vals).1 = (Planner.plan F kb vals).1 := by
  refine ⟨rfl, ?_⟩
  have husp : ∀ s, UsesEq (apply_dynamic_z kb)
      (apply_dynamic_z { kb with budget := b }) s :=
    fun s => ⟨rfl, rfl, rfl, rfl, rfl, rfl, rfl, rfl, rfl⟩
  have hcands : (planState F { kb with budget := b }).cands = (planState F kb).cands := by
    rw [planState_cands, planState_cands]
    exact List.map_congr_left (fun e _ => by rw [candsFor_congr (husp e.1) F])
  have hstops : (planState F { kb with budget := b }).stops = (planState F kb).stops := by
    rw [planState_stops, planState_stops,
      funext (fun e : String × Product => by
        rw [overstock_hit_congr (husp e.1)] :
        ∀ e : String × Product,
          (if overstock_hit (apply_dynamic_z { kb with budget := b }) e then
            ([⟨e.1, STOP_ORDERS_DAYS⟩] : List StopOrder) else []) =
          (if overstock_hit (apply_dynamic_z kb) e then [⟨e.1, STOP_ORDERS_DAYS⟩] else []))]
  have hblocked : (planState F { kb with budget := b }).blocked = (planState F kb).blocked := by
    rw [planState_blocked, planState_blocked,
      funext (fun e : String × Product => by
        rw [is_blocked_congr (husp e.1)] :
        ∀ e : String × Product,
          (if (apply_dynamic_z { kb with budget := b }).is_blocked e.1 then
            ([e.1] : List String) else []) =
          (if (apply_dynamic_z kb).is_blocked e.1 then [e.1] else []))]
  unfold Planner.plan
  dsimp only
  rw [hcands, hstops, hblocked]

/-! ## Helper lemmas: the estimator's standard deviation -/

lemma pvariance_nonneg (xs : List ℚ) : 0 ≤ pvariance xs := by
  unfold pvariance
  apply div_nonneg
  · apply List.sum_nonneg
    intro x hx
    obtain ⟨y, -, rfl⟩ := List.mem_map.mp hx
    positivity
  · positivity

/-- The standard deviation `_mean_std` returns always exceeds the `1e-6`
guard used by the anomaly z-score denominator. -/
lemma mean_std_gt (xs : List ℚ) : (1 : ℝ)/1000000 < (mean_std xs).2 := by
  match xs with
  | [] =>
    norm_num [mean_std]
  | [x] =>
    simp only [mean_std]
    calc (1 : ℝ)/1000000 < ((1 : ℚ) : ℝ) := by norm_num
      _ ≤ ((max 1 (|x| * (1/4)) : ℚ) : ℝ) := by exact_mod_cast le_max_left _ _
  | x :: y :: t =>
    simp only [mean_std]
    split_ifs with hv
    · have hv' : ((1/1000000000000 : ℚ) : ℝ) < ((pvariance (x :: y :: t) : ℚ) : ℝ) := by
        exact_mod_cast hv
    -- `sqrt` is monotone and `sqrt 1e-12 = 1e-6`
      have h6 : ((1 : ℝ)/1000000) ^ 2 < ((pvariance (x :: y :: t) : ℚ) : ℝ) := by
        norm_num at hv' ⊢
        linarith
      exact (Real.lt_sqrt (by positivity)).mpr h6
    · calc (1 : ℝ)/1000000 < ((1 : ℚ) : ℝ) := by norm_num
        _ ≤ ((max 1 (|listMean (x :: y :: t)| * (1/4)) : ℚ) : ℝ) := by
          exact_mod_cast le_max_left _ _

lemma mean_std_pos (xs : List ℚ) : 0 < (mean_std xs).2 :=
  lt_trans (by norm_num) (mean_std_gt xs)

/-! ## Claim C6: the anomaly boundary -/

/-- C6: for a nonempty history, a spike anomaly is emitted iff the z-score
(as the claim words it, with denominator `max(std, ε)`) strictly exceeds
the configured threshold, a drop iff it is strictly below its negation;
z equal to either boundary triggers nothing, and storing the resulting
`None` removes any previously stored anomaly for the product. -/
theorem anomaly_threshold_boundary (hist : List DayRec) (h : hist ≠ []) :
    ((∃ a, analyze_anomaly ANOMALY_Z_THRESHOLD hist = some a ∧
        a.atype = AnomalyType.spike) ↔
      ((ANOMALY_Z_THRESHOLD : ℚ) : ℝ) < z_claim hist) ∧
    ((∃ a, analyze_anomaly ANOMALY_Z_THRESHOLD hist = some a ∧
        a.atype = AnomalyType.drop) ↔
      z_claim hist < -((ANOMALY_Z_THRESHOLD : ℚ) : ℝ)) ∧
    ((z_claim hist = ((ANOMALY_Z_THRESHOLD : ℚ) : ℝ) ∨
        z_claim hist = -((ANOMALY_Z_THRESHOLD : ℚ) : ℝ)) →
      analyze_anomaly ANOMALY_Z_THRESHOLD hist = none) ∧
    (∀ anoms sku, analyze_anomaly ANOMALY_Z_THRESHOLD hist = none →
      store_anomaly anoms sku (analyze_anomaly ANOMALY_Z_THRESHOLD hist) sku = none) := by
  obtain ⟨last, hlast⟩ : ∃ r, hist.getLast? = some r := by
    cases hgl : hist.getLast? with
    | none => exact absurd (List.getLast?_eq_none_iff.mp hgl) h
    | some r => exact ⟨r, rfl⟩
  have hgt := mean_std_gt (effective_demand hist)
  have hzz : z_claim hist =
      ((((last.sales : ℚ) + (last.lost_sales : ℚ) : ℚ) : ℝ) -
          ((mean_std (effective_demand hist)).1 : ℝ)) /
        (mean_std (effective_demand hist)).2 := by
    unfold z_claim
    rw [hlast]
    dsimp only
    rw [max_eq_left (le_of_lt hgt)]
  have hform : analyze_anomaly ANOMALY_Z_THRESHOLD hist =
      (if ((ANOMALY_Z_THRESHOLD : ℚ) : ℝ) < z_claim hist then
        some ⟨AnomalyType.spike, z_claim hist, (last.sales : ℚ) + (last.lost_sales : ℚ),
          (mean_std (effective_demand hist)).1⟩
      else if z_claim hist < -((ANOMALY_Z_THRESHOLD : ℚ) : ℝ) then
        some ⟨AnomalyType.drop, z_claim hist, (last.sales : ℚ) + (last.lost_sales : ℚ),
          (mean_std (effective_demand hist)).1⟩
      else none) := by
    unfold analyze_anomaly
    rw [hlast]
    dsimp only
    rw [if_pos hgt, ← hzz]
  refine ⟨?_, ?_, ?_, ?_⟩
  · rw [hform]
    split_ifs with h1 h2 <;> simp [h1]
  · rw [hform]
    split_ifs with h1 h2
    · have hnr : ¬ z_claim hist < -((ANOMALY_Z_THRESHOLD : ℚ) : ℝ) := by
        norm_num [ANOMALY_Z_THRESHOLD] at h1 ⊢
        linarith
      simp [hnr]
    · simp [h2]
    · simp [h2]
  · intro hb
    rw [hform]
    have h1 : ¬ ((ANOMALY_Z_THRESHOLD : ℚ) : ℝ) < z_claim hist := by
      rcases hb with hb | hb <;> rw [hb] <;> norm_num [ANOMALY_Z_THRESHOLD]
    have h2 : ¬ z_claim hist < -((ANOMALY_Z_THRESHOLD : ℚ) : ℝ) := by
      rcases hb with hb | hb <;> rw [hb] <;> norm_num [ANOMALY_Z_THRESHOLD]
    rw [if_neg h1, if_neg h2]
  · intro anoms sku hnone
    rw [hnone]
    simp [store_anomaly]

/-- C6 witness: a single-day history. -/
theorem anomaly_threshold_boundary_witness :
    ([(⟨0, 30, 30, 0⟩ : DayRec)] ≠ ([] : List DayRec)) ∧
    (((∃ a, analyze_anomaly ANOMALY_Z_THRESHOLD [(⟨0, 30, 30, 0⟩ : DayRec)] = some a ∧
        a.atype = AnomalyType.spike) ↔
      ((ANOMALY_Z_THRESHOLD : ℚ) : ℝ) < z_claim [(⟨0, 30, 30, 0⟩ : DayRec)]) ∧
    ((∃ a, analyze_anomaly ANOMALY_Z_THRESHOLD [(⟨0, 30, 30, 0⟩ : DayRec)] = some a ∧
        a.atype = AnomalyType.drop) ↔
      z_claim [(⟨0, 30, 30, 0⟩ : DayRec)] < -((ANOMALY_Z_THRESHOLD : ℚ) : ℝ)) ∧
    ((z_claim [(⟨0, 30, 30, 0⟩ : DayRec)] = ((ANOMALY_Z_THRESHOLD : ℚ) : ℝ) ∨
        z_claim [(⟨0, 30, 30, 0⟩ : DayRec)] = -((ANOMALY_Z_THRESHOLD : ℚ) : ℝ)) →
      analyze_anomaly ANOMALY_Z_THRESHOLD [(⟨0, 30, 30, 0⟩ : DayRec)] = none) ∧
    (∀ anoms sku, analyze_anomaly ANOMALY_Z_THRESHOLD [(⟨0, 30, 30, 0⟩ : DayRec)] = none →
      store_anomaly anoms sku
        (analyze_anomaly ANOMALY_Z_THRESHOLD [(⟨0, 30, 30, 0⟩ : DayRec)]) sku = none)) :=
  ⟨by simp, anomaly_threshold_boundary _ (by simp)⟩

/-! ## Claim C7: the estimator's edge cases -/

/-- C7: the estimator returns `(0, 1)` on an empty window,
`(v, max(1, 0.25·|v|))` on a single sample, floors the standard deviation
to `max(1, 0.25·|mean|)` when the population standard deviation is below
the `1e-6` threshold, maps the constant history `[20, 20, 20, 20]` to
`(20, 5)` — whence no anomaly for today's value 20 — and always returns a
strictly positive standard deviation. -/
theorem estimator_std_floor :
    mean_std ([] : List ℚ) = (0, 1) ∧
    (∀ v : ℚ, mean_std [v] = (v, ((max 1 (|v| * (1/4)) : ℚ) : ℝ))) ∧
    (∀ xs : List ℚ, 2 ≤ xs.length → Real.sqrt ((pvariance xs : ℚ) : ℝ) < 1/1000000 →
      (mean_std xs).2 = ((max 1 (|listMean xs| * (1/4)) : ℚ) : ℝ)) ∧
    mean_std [20, 20, 20, 20] = (20, ((5 : ℚ) : ℝ)) ∧
    analyze_anomaly ANOMALY_Z_THRESHOLD
      [(⟨1, 20, 20, 0⟩ : DayRec), ⟨2, 20, 20, 0⟩, ⟨3, 20, 20, 0⟩, ⟨4, 20, 20, 0⟩] = none ∧
    (∀ xs : List ℚ, 0 < (mean_std xs).2) := by
  have hfloor : ∀ xs : List ℚ, 2 ≤ xs.length →
      Real.sqrt ((pvariance xs : ℚ) : ℝ) < 1/1000000 →
      (mean_std xs).2 = ((max 1 (|listMean xs| * (1/4)) : ℚ) : ℝ) := by
    intro xs hlen hsq
    match xs with
    | [] => simp at hlen
    | [x] => simp at hlen
    | x :: y :: t =>
      simp only [mean_std]
      have hnn : (0 : ℝ) ≤ ((pvariance (x :: y :: t) : ℚ) : ℝ) := by
        exact_mod_cast pvariance_nonneg (x :: y :: t)
      have hvr : ((pvariance (x :: y :: t) : ℚ) : ℝ) < ((1 : ℝ)/1000000) ^ 2 := by
        have hs := Real.sq_sqrt hnn
        nlinarith [Real.sqrt_nonneg ((pvariance (x :: y :: t) : ℚ) : ℝ), hsq]
      have hneg : ¬ ((1/1000000000000 : ℚ) < pvariance (x :: y :: t)) := by
        intro hc
        have hcr : ((1/1000000000000 : ℚ) : ℝ) < ((pvariance (x :: y :: t) : ℚ) : ℝ) := by
          exact_mod_cast hc
        norm_num at hcr hvr
        linarith
      rw [if_neg hneg]
  have h4 : mean_std [20, 20, 20, 20] = (20, ((5 : ℚ) : ℝ)) := by
    simp only [mean_std]
    norm_num [listMean, pvariance]
  refine ⟨rfl, fun v => rfl, hfloor, h4, ?_, mean_std_pos⟩
  have hgl : ([(⟨1, 20, 20, 0⟩ : DayRec), ⟨2, 20, 20, 0⟩, ⟨3, 20, 20, 0⟩,
      ⟨4, 20, 20, 0⟩] : List DayRec).getLast? = some ⟨4, 20, 20, 0⟩ := rfl
  have heff : effective_demand [(⟨1, 20, 20, 0⟩ : DayRec), ⟨2, 20, 20, 0⟩, ⟨3, 20, 20, 0⟩,
      ⟨4, 20, 20, 0⟩] = [20, 20, 20, 20] := by
    norm_num [effective_demand]
  unfold analyze_anomaly
  rw [hgl]
  dsimp only
  rw [heff, h4]
  have hd : ((1 : ℝ)/1000000) < ((5 : ℚ) : ℝ) := by norm_num
  rw [if_pos hd]
  norm_num [ANOMALY_Z_THRESHOLD]

/-- C7 witness. -/
theorem estimator_std_floor_witness :
    (2 ≤ ([3, 3] : List ℚ).length ∧
      Real.sqrt ((pvariance ([3, 3] : List ℚ) : ℚ) : ℝ) < 1/1000000) ∧
    ((mean_std ([3, 3] : List ℚ)).2 =
      ((max 1 (|listMean ([3, 3] : List ℚ)| * (1/4)) : ℚ) : ℝ) ∧
    mean_std [(7 : ℚ)] = (7, ((max 1 (|(7 : ℚ)| * (1/4)) : ℚ) : ℝ)) ∧
    0 < (mean_std ([] : List ℚ)).2) := by
  have hpv : pvariance ([3, 3] : List ℚ) = 0 := by
    norm_num [pvariance, listMean]
  have hsq : Real.sqrt ((pvariance ([3, 3] : List ℚ) : ℚ) : ℝ) < 1/1000000 := by
    rw [hpv]
    norm_num [Real.sqrt_zero]
  exact ⟨⟨by norm_num, hsq⟩,
    estimator_std_floor.2.2.1 [3, 3] (by norm_num) hsq,
    estimator_std_floor.2.1 7,
    estimator_std_floor.2.2.2.2.2 []⟩

end Warehouse

